import Mathlib

set_option maxRecDepth 100000

/-!
Verification development for the ARDUINO_LED repository.

Shallow embedding of:
  * `src/pixel_protocol.py` — binary wire-protocol encoder (framing + CRC-8 trailer);
  * `src/src/PIXEL_CLI/pixel.py` — per-LED `Pixel` state and its operations;
  * `src/src/PIXEL_CLI/pixel_array.py` — `PixelArray` model (selection, painting, clear);
  * `src/src/PIXEL_CLI/pixel_cli.py` — the control-loop fragments that move the selection
    and adjust global brightness;
  * `src/key_state.py` — `KeyState` keyboard tracker (pressed / edge sets).

Python integers are modelled as `Nat` (with explicit masking `&&& (2^w - 1)` where the
source masks) or `Int` where the source can see negative values; Python `%` on a positive
modulus agrees with Lean's `Int.emod` / `Nat.mod`.  Mutating methods become functions
returning the updated value.  Bytes written to the serial port become `List Nat` of byte
values.  Python sets become `List String` with insert-if-absent / erase operations.
-/

namespace ArduinoLed

/-! ### Protocol encoder — `src/pixel_protocol.py` -/

def START_OF_FRAME_1 : Nat := 0xA5
def START_OF_FRAME_2 : Nat := 0x5A
def CMD_BRIGHTNESS : Nat := 0x13
def CMD_SET_PIXEL : Nat := 0x10
def CMD_SHOW : Nat := 0x04

/-- One round of the inner `for _ in range(8)` loop of `compute_crc8`:
`checksum = ((checksum << 1) ^ 0x07) & 0xFF if (checksum & 0x80) else ((checksum << 1) & 0xFF)`. -/
def crc8_shift (checksum : Nat) : Nat :=
  if checksum &&& 0x80 ≠ 0 then ((checksum <<< 1) ^^^ 0x07) &&& 0xFF
  else (checksum <<< 1) &&& 0xFF

/-- Iterate `crc8_shift` `n` times (the source runs 8 per input byte). -/
def crc8_rounds : Nat → Nat → Nat
  | 0, checksum => checksum
  | n + 1, checksum => crc8_rounds n (crc8_shift checksum)

/-- Source `compute_crc8(data_bytes)` from `src/pixel_protocol.py`: running checksum starts at 0,
each byte is XORed in and then shifted through 8 MSB-first rounds with polynomial 0x07. -/
def compute_crc8 (data_bytes : List Nat) : Nat :=
  data_bytes.foldl (fun checksum byte_value => crc8_rounds 8 (checksum ^^^ byte_value)) 0

/-- Source `send_set_pixel(port, pixel_index, r, g, b)`: the exact bytes written to the port. -/
def send_set_pixel (pixel_index r g b : Nat) : List Nat :=
  let payload : List Nat :=
    [pixel_index &&& 0xFF, (pixel_index >>> 8) &&& 0xFF, r &&& 0xFF, g &&& 0xFF, b &&& 0xFF]
  let header : List Nat :=
    [START_OF_FRAME_1, START_OF_FRAME_2, CMD_SET_PIXEL,
     payload.length &&& 0xFF, (payload.length >>> 8) &&& 0xFF]
  let crc := compute_crc8 (header.drop 2 ++ payload)
  header ++ payload ++ [crc]

/-- Source `send_brightness(port, value)`: value is clamped to [0,255] first. -/
def send_brightness (value : Int) : List Nat :=
  let v : Nat := (max 0 (min 255 value)).toNat
  let payload : List Nat := [v]
  let header : List Nat := [START_OF_FRAME_1, START_OF_FRAME_2, CMD_BRIGHTNESS, 0x01, 0x00]
  let crc := compute_crc8 (header.drop 2 ++ payload)
  header ++ payload ++ [crc]

/-- Source `send_show(port)`: empty payload. -/
def send_show : List Nat :=
  let header : List Nat := [START_OF_FRAME_1, START_OF_FRAME_2, CMD_SHOW, 0x00, 0x00]
  let crc := compute_crc8 (header.drop 2)
  header ++ [crc]

/-! ### Bit-mask bridging lemmas -/

theorem and_255_eq_mod (n : Nat) : n &&& 255 = n % 256 := by
  have h := Nat.and_pow_two_sub_one_eq_mod n 8
  simpa using h

theorem shiftRight8_eq_div (n : Nat) : n >>> 8 = n / 256 := by
  have h := Nat.shiftRight_eq_div_pow n 8
  simpa using h

/-- C1: for every pixel index in [0, 65535] and channels in [0, 255], `send_set_pixel`
writes exactly one frame `A5 5A | 10 | 05 00 | idxLo idxHi r g b | crc` where the trailing
byte is `compute_crc8` (the 8-bit CRC, polynomial 0x07, MSB-first, zero initial value, no
final XOR) over command byte, the two little-endian length bytes and the payload, markers
excluded; `send_set_pixel(3,255,0,128)` is exactly `A5 5A 10 05 00 03 00 FF 00 80` followed
by that CRC (= 0x99); `send_brightness` (command 0x13, length 1) and `send_show` (command
0x04, length 0, empty payload) follow the same framing and checksum rule. -/
theorem c1_frame_encoding (pixel_index r g b : Nat)
    (hidx : pixel_index ≤ 65535) (hr : r ≤ 255) (hg : g ≤ 255) (hb : b ≤ 255) :
    (send_set_pixel pixel_index r g b =
      [0xA5, 0x5A, 0x10, 0x05, 0x00, pixel_index % 256, pixel_index / 256, r, g, b,
        compute_crc8
          [0x10, 0x05, 0x00, pixel_index % 256, pixel_index / 256, r, g, b]]) ∧
    send_set_pixel 3 255 0 128 =
      [0xA5, 0x5A, 0x10, 0x05, 0x00, 0x03, 0x00, 0xFF, 0x00, 0x80, 0x99] ∧
    compute_crc8 [0x10, 0x05, 0x00, 0x03, 0x00, 0xFF, 0x00, 0x80] = 0x99 ∧
    (∀ v : Int, 0 ≤ v → v ≤ 255 →
      send_brightness v =
        [0xA5, 0x5A, 0x13, 0x01, 0x00, v.toNat,
          compute_crc8 [0x13, 0x01, 0x00, v.toNat]]) ∧
    send_show = [0xA5, 0x5A, 0x04, 0x00, 0x00, compute_crc8 [0x04, 0x00, 0x00]] := by
  refine ⟨?_, by decide, by decide, ?_, by decide⟩
  · have h1 : pixel_index &&& 0xFF = pixel_index % 256 := and_255_eq_mod pixel_index
    have h2 : (pixel_index >>> 8) &&& 0xFF = pixel_index / 256 := by
      rw [shiftRight8_eq_div, and_255_eq_mod]
      omega
    have hr1 : r &&& 0xFF = r := by rw [and_255_eq_mod]; omega
    have hg1 : g &&& 0xFF = g := by rw [and_255_eq_mod]; omega
    have hb1 : b &&& 0xFF = b := by rw [and_255_eq_mod]; omega
    simp only [send_set_pixel, List.length_cons, List.length_nil, h1, h2, hr1, hg1, hb1]
    rfl
  · intro v h0 h255
    have hv : max 0 (min 255 v) = v := by omega
    simp only [send_brightness, hv]
    rfl

/-- C1 witness: the general frame-shape clause of `c1_frame_encoding` evaluated at the
concrete input (3, 255, 0, 128). -/
theorem c1_frame_encoding_witness :
    send_set_pixel 3 255 0 128 =
      [0xA5, 0x5A, 0x10, 0x05, 0x00, 3 % 256, 3 / 256, 255, 0, 128,
        compute_crc8 [0x10, 0x05, 0x00, 3 % 256, 3 / 256, 255, 0, 128]] :=
  (c1_frame_encoding 3 255 0 128 (by decide) (by decide) (by decide) (by decide)).1

/-! ### Pixel — `src/src/PIXEL_CLI/pixel.py` -/

def _U64_MASK : Nat := (1 <<< 64) - 1

/-- One LED's state: field for field the `Pixel` slots of the source. -/
structure Pixel where
  index : Nat
  is_active : Bool
  is_selected : Bool
  r : Nat
  g : Nat
  b : Nat
  brightness : Nat
deriving DecidableEq

/-- Constructor `Pixel(i)` with the source's default arguments
(`is_active=False, is_selected=False, r=g=b=0, brightness=255`). -/
def Pixel.init (index : Nat) : Pixel :=
  { index := index, is_active := false, is_selected := false,
    r := 0 &&& _U64_MASK, g := 0 &&& _U64_MASK, b := 0 &&& _U64_MASK,
    brightness := max 0 (min 255 255) }

/-- Source `Pixel.set_rgb8`: store 8-bit values (masked with `& 0xFF`); `is_active` untouched. -/
def Pixel.set_rgb8 (p : Pixel) (r8 g8 b8 : Nat) : Pixel :=
  { p with r := r8 &&& 0xFF, g := g8 &&& 0xFF, b := b8 &&& 0xFF }

/-- Source `Pixel.get_rgb8`: lower 8 bits of each channel. -/
def Pixel.get_rgb8 (p : Pixel) : Nat × Nat × Nat :=
  (p.r &&& 0xFF, p.g &&& 0xFF, p.b &&& 0xFF)

/-- Source `Pixel.set_selected`: sets the flag and pins `brightness` to 255. -/
def Pixel.set_selected (p : Pixel) (is_sel : Bool) : Pixel :=
  { p with is_selected := is_sel, brightness := 255 }

/-- Source `Pixel.dim(amount)`: early return if selected, or if inactive and already black,
or if the clamped amount is 0; otherwise subtract with floor 0 from each channel and
clear `is_active` when all channels reach 0.  `amount : Int` since Python callers could
pass a negative amount (then `a = max(0, amount) = 0`); `Nat` subtraction is Python's
`max(0, x - a)` for the channel values. -/
def Pixel.dim (p : Pixel) (amount : Int) : Pixel :=
  if p.is_selected then p
  else if p.is_active = false ∧ p.r = 0 ∧ p.g = 0 ∧ p.b = 0 then p
  else
    let a : Nat := (max 0 amount).toNat
    if a = 0 then p
    else
      let r := p.r - a
      let g := p.g - a
      let b := p.b - a
      { p with
        r := r
        g := g
        b := b
        is_active := if r = 0 ∧ g = 0 ∧ b = 0 then false else p.is_active }

/-! ### In-place list update (Python `self.pixels[i].method(...)`) -/

/-- Apply `f` to the element at position `i`, leaving the rest of the list unchanged
(models a mutating method call on `pixels[i]`). -/
def modifyIdx {α : Type} (f : α → α) : Nat → List α → List α
  | _, [] => []
  | 0, x :: xs => f x :: xs
  | n + 1, x :: xs => x :: modifyIdx f n xs

theorem length_modifyIdx {α : Type} (f : α → α) (i : Nat) (l : List α) :
    (modifyIdx f i l).length = l.length := by
  induction l generalizing i with
  | nil => cases i <;> rfl
  | cons x xs ih =>
    cases i with
    | zero => rfl
    | succ n => simp [modifyIdx, ih]

theorem getD_modifyIdx_self {α : Type} (f : α → α) (i : Nat) (l : List α) (d : α)
    (h : i < l.length) : (modifyIdx f i l).getD i d = f (l.getD i d) := by
  induction l generalizing i with
  | nil => simp at h
  | cons x xs ih =>
    cases i with
    | zero => rfl
    | succ n =>
      simp only [modifyIdx, List.getD_cons_succ]
      exact ih n (by simpa using h)

theorem getD_modifyIdx_ne {α : Type} (f : α → α) (i j : Nat) (l : List α) (d : α)
    (h : j ≠ i) : (modifyIdx f i l).getD j d = l.getD j d := by
  induction l generalizing i j with
  | nil => cases i <;> rfl
  | cons x xs ih =>
    cases i with
    | zero =>
      cases j with
      | zero => exact absurd rfl h
      | succ m => rfl
    | succ n =>
      cases j with
      | zero => rfl
      | succ m =>
        simp only [modifyIdx, List.getD_cons_succ]
        exact ih n m (by omega)

/-! ### Defaults — `src/src/PIXEL_CLI/defaults.py` -/

def DEFAULT_NUM_LEDS : Nat := 288
def DEFAULT_STEP : Nat := 8
def DEFAULT_GLOBAL_BRIGHTNESS : Nat := 64
def DEFAULT_RED : Nat := 128
def DEFAULT_GREEN : Nat := 128
def DEFAULT_BLUE : Nat := 128

/-! ### PixelArray — `src/src/PIXEL_CLI/pixel_array.py` -/

structure PixelArray where
  led_count : Nat
  pixels : List Pixel
  selected_pixel_index : Nat
  selected_color : Nat × Nat × Nat
  global_brightness : Nat
deriving DecidableEq

/-- Constructor `PixelArray(led_count)`: pixels `Pixel(0) … Pixel(led_count-1)`, index 0 selected,
pen color defaulted, default global brightness. -/
def PixelArray.init (led_count : Nat) : PixelArray :=
  { led_count := led_count
    pixels := modifyIdx (fun px => px.set_selected true) 0
      ((List.range led_count).map Pixel.init)
    selected_pixel_index := 0
    selected_color := (DEFAULT_RED, DEFAULT_GREEN, DEFAULT_BLUE)
    global_brightness := DEFAULT_GLOBAL_BRIGHTNESS }

def PixelArray.get_selected_pixel (pa : PixelArray) : Nat :=
  pa.selected_pixel_index

/-- Source `PixelArray.set_rgb8`: `self.pixels[led_index].set_rgb8(r8, g8, b8)`. -/
def PixelArray.set_rgb8 (pa : PixelArray) (led_index r8 g8 b8 : Nat) : PixelArray :=
  { pa with pixels := modifyIdx (fun px => px.set_rgb8 r8 g8 b8) led_index pa.pixels }

/-- Source `PixelArray.apply_selected_color_to(index)`: paint pixel `index` with the pen color. -/
def PixelArray.apply_selected_color_to (pa : PixelArray) (index : Nat) : PixelArray :=
  pa.set_rgb8 index pa.selected_color.1 pa.selected_color.2.1 pa.selected_color.2.2

/-- Source `PixelArray.set_selected_color(r,g,b)`: clamp each channel to [0,255] independently. -/
def PixelArray.set_selected_color (pa : PixelArray) (r g b : Int) : PixelArray :=
  { pa with selected_color :=
      ((max 0 (min 255 r)).toNat, (max 0 (min 255 g)).toNat, (max 0 (min 255 b)).toNat) }

/-- Source `PixelArray.set_selected_pixel(new_selected_index)`: normalize mod `led_count`,
no-op if unchanged; else un-select the old pixel, move the index, paint the new pixel
with the pen color, select the new pixel (source statement order preserved). -/
def PixelArray.set_selected_pixel (pa : PixelArray) (new_selected_index : Nat) : PixelArray :=
  let ni := new_selected_index % pa.led_count
  if ni = pa.selected_pixel_index then pa
  else
    let pa1 : PixelArray :=
      { pa with pixels :=
          modifyIdx (fun px => px.set_selected false) pa.selected_pixel_index pa.pixels }
    let pa2 : PixelArray := { pa1 with selected_pixel_index := ni }
    let pa3 := pa2.apply_selected_color_to ni
    { pa3 with pixels := modifyIdx (fun px => px.set_selected true) ni pa3.pixels }

def PixelArray.set_global_brightness (pa : PixelArray) (gb : Nat) : PixelArray :=
  { pa with global_brightness := gb }

/-- Source `PixelArray.clear()`: every pixel becomes inactive, black, brightness 0;
`selected_pixel_index`, the selection flags and the pen color are untouched. -/
def PixelArray.clear (pa : PixelArray) : PixelArray :=
  { pa with pixels :=
      pa.pixels.map fun px => { px with is_active := false, r := 0, g := 0, b := 0, brightness := 0 } }

/-! ### Claim C2 — `Pixel.dim` -/

/-- Claim-side model of `dim`, following the claim's words only (for comparison with
`Pixel.dim` above, which is translated from the source): no-op if selected; no-op if
inactive with all channels 0; otherwise subtract `amount` from each channel flooring at 0
and set `active` to false exactly when all three channels reach 0. -/
def dim_claimed (p : Pixel) (amount : Int) : Pixel :=
  if p.is_selected then p
  else if p.is_active = false ∧ p.r = 0 ∧ p.g = 0 ∧ p.b = 0 then p
  else
    let r := (max 0 ((p.r : Int) - amount)).toNat
    let g := (max 0 ((p.g : Int) - amount)).toNat
    let b := (max 0 ((p.b : Int) - amount)).toNat
    { p with
      r := r
      g := g
      b := b
      is_active := if r = 0 ∧ g = 0 ∧ b = 0 then false else p.is_active }

/-- A non-selected, still-active, already-black pixel. -/
def pixelActiveBlack : Pixel :=
  { index := 0, is_active := true, is_selected := false, r := 0, g := 0, b := 0,
    brightness := 255 }

/-- C2 counterexample: for the non-selected active pixel with channels (0,0,0) and
amount 0 the claim ("otherwise … sets active to false exactly when all three channels
reach 0") predicts `active` is cleared, but the source's `dim` returns early on a
clamped amount of 0 and leaves the pixel unchanged with `is_active` still true. -/
theorem c2_dim_counterexample :
    Pixel.dim pixelActiveBlack 0 = pixelActiveBlack ∧
    (Pixel.dim pixelActiveBlack 0).is_active = true ∧
    (dim_claimed pixelActiveBlack 0).is_active = false ∧
    Pixel.dim pixelActiveBlack 0 ≠ dim_claimed pixelActiveBlack 0 := by
  refine ⟨rfl, rfl, rfl, ?_⟩
  decide

/-- C2 (amended): `dim` is a no-op if the pixel is selected, a no-op if the pixel is
inactive with all three channels already 0, and also a no-op when the amount clamped
below at 0 is 0 (i.e. amount ≤ 0); for amount ≥ 1 it subtracts the amount from each of
r, g, b flooring each at 0 and sets `active` to false exactly when all three resulting
channels are 0, leaving every other field unchanged. -/
theorem c2_dim_amended (p : Pixel) (amount : Int) :
    (p.is_selected = true → p.dim amount = p) ∧
    (p.is_active = false ∧ p.r = 0 ∧ p.g = 0 ∧ p.b = 0 → p.dim amount = p) ∧
    (amount ≤ 0 → p.dim amount = p) ∧
    (p.is_selected = false →
      ¬(p.is_active = false ∧ p.r = 0 ∧ p.g = 0 ∧ p.b = 0) →
      1 ≤ amount →
      p.dim amount =
        { p with
          r := p.r - amount.toNat
          g := p.g - amount.toNat
          b := p.b - amount.toNat
          is_active :=
            if p.r - amount.toNat = 0 ∧ p.g - amount.toNat = 0 ∧ p.b - amount.toNat = 0
            then false else p.is_active }) := by
  refine ⟨?_, ?_, ?_, ?_⟩
  · intro h
    simp [Pixel.dim, h]
  · intro h
    simp only [Pixel.dim, if_pos h]
    split <;> rfl
  · intro h
    have ha : (max 0 amount).toNat = 0 := by omega
    simp only [Pixel.dim, ha, if_pos rfl]
    split
    · rfl
    · split <;> rfl
  · intro hsel hdark h1
    have ha : (max 0 amount).toNat = amount.toNat := by omega
    have ha0 : ¬ (max 0 amount).toNat = 0 := by omega
    simp only [Pixel.dim, hsel, Bool.false_eq_true, if_neg, if_false, ha, ha0]
    rw [if_neg (show ¬ amount.toNat = 0 by omega), if_neg hdark]

/-- C2 witness: the claim's own concrete examples, obtained from `c2_dim_amended` at
the pixel (r,g,b)=(10,10,10): non-selected and active it dims to black with `active`
cleared; selected it is untouched by `dim 15`. -/
theorem c2_dim_amended_witness :
    Pixel.dim
        { index := 0, is_active := true, is_selected := false, r := 10, g := 10, b := 10,
          brightness := 255 } 15 =
      { index := 0, is_active := false, is_selected := false, r := 0, g := 0, b := 0,
        brightness := 255 } ∧
    Pixel.dim
        { index := 0, is_active := true, is_selected := true, r := 10, g := 10, b := 10,
          brightness := 255 } 15 =
      { index := 0, is_active := true, is_selected := true, r := 10, g := 10, b := 10,
        brightness := 255 } := by
  constructor
  · have h := (c2_dim_amended
      { index := 0, is_active := true, is_selected := false, r := 10, g := 10, b := 10,
        brightness := 255 } 15).2.2.2 rfl (by decide) (by decide)
    simpa using h
  · exact (c2_dim_amended
      { index := 0, is_active := true, is_selected := true, r := 10, g := 10, b := 10,
        brightness := 255 } 15).1 rfl

/-! ### Claim C3 — `PixelArray.set_selected_pixel` -/

theorem and255_twice (x : Nat) (h : x ≤ 255) : (x &&& 0xFF) &&& 0xFF = x := by
  rw [and_255_eq_mod, and_255_eq_mod]
  omega

/-- Lemma: `set_selected_pixel` always leaves the selected index at `newIndex % led_count`
(in the no-op branch the two already agree). -/
theorem set_selected_pixel_index (pa : PixelArray) (newIndex : Nat) :
    (pa.set_selected_pixel newIndex).selected_pixel_index = newIndex % pa.led_count := by
  by_cases h : newIndex % pa.led_count = pa.selected_pixel_index
  · simp [PixelArray.set_selected_pixel, h]
  · simp [PixelArray.set_selected_pixel, h, PixelArray.apply_selected_color_to,
      PixelArray.set_rgb8]

theorem set_selected_pixel_led_count (pa : PixelArray) (newIndex : Nat) :
    (pa.set_selected_pixel newIndex).led_count = pa.led_count := by
  by_cases h : newIndex % pa.led_count = pa.selected_pixel_index
  · simp [PixelArray.set_selected_pixel, h]
  · simp [PixelArray.set_selected_pixel, h, PixelArray.apply_selected_color_to,
      PixelArray.set_rgb8]

theorem set_selected_pixel_pixels_length (pa : PixelArray) (newIndex : Nat) :
    (pa.set_selected_pixel newIndex).pixels.length = pa.pixels.length := by
  by_cases h : newIndex % pa.led_count = pa.selected_pixel_index
  · simp [PixelArray.set_selected_pixel, h]
  · simp [PixelArray.set_selected_pixel, h, PixelArray.apply_selected_color_to,
      PixelArray.set_rgb8, length_modifyIdx]

/-- C3: `set_selected_pixel` normalizes the new index modulo `led_count`; when the
normalized index equals the current one the call changes nothing; otherwise the old
selected pixel loses the flag, the pixel at the normalized index gains it and is painted
with the current pen color (its 8-bit color equals the pen color afterwards), and every
other pixel is untouched — the flag moves exactly once per call. -/
theorem c3_set_selected_pixel (pa : PixelArray) (newIndex : Nat)
    (hlen : pa.pixels.length = pa.led_count)
    (hsel : pa.selected_pixel_index < pa.led_count)
    (hr : pa.selected_color.1 ≤ 255) (hg : pa.selected_color.2.1 ≤ 255)
    (hb : pa.selected_color.2.2 ≤ 255) :
    (newIndex % pa.led_count = pa.selected_pixel_index →
      pa.set_selected_pixel newIndex = pa) ∧
    (newIndex % pa.led_count ≠ pa.selected_pixel_index →
      (pa.set_selected_pixel newIndex).selected_pixel_index = newIndex % pa.led_count ∧
      ((pa.set_selected_pixel newIndex).pixels.getD pa.selected_pixel_index
          (Pixel.init 0)).is_selected = false ∧
      ((pa.set_selected_pixel newIndex).pixels.getD (newIndex % pa.led_count)
          (Pixel.init 0)).is_selected = true ∧
      ((pa.set_selected_pixel newIndex).pixels.getD (newIndex % pa.led_count)
          (Pixel.init 0)).get_rgb8 = pa.selected_color ∧
      (∀ j, j ≠ pa.selected_pixel_index → j ≠ newIndex % pa.led_count →
        (pa.set_selected_pixel newIndex).pixels.getD j (Pixel.init 0) =
          pa.pixels.getD j (Pixel.init 0))) := by
  have hlc : 0 < pa.led_count := Nat.pos_of_ne_zero (by omega)
  constructor
  · intro h
    unfold PixelArray.set_selected_pixel
    rw [if_pos h]
  · intro hne
    have hOldNe : pa.selected_pixel_index ≠ newIndex % pa.led_count := fun hh => hne hh.symm
    have hOldLt : pa.selected_pixel_index < pa.pixels.length := by omega
    have hNiLt : newIndex % pa.led_count < pa.pixels.length := by
      have := Nat.mod_lt newIndex hlc
      omega
    refine ⟨set_selected_pixel_index pa newIndex, ?_, ?_, ?_, ?_⟩ <;>
      simp only [PixelArray.set_selected_pixel, PixelArray.apply_selected_color_to,
        PixelArray.set_rgb8, if_neg hne]
    · rw [getD_modifyIdx_ne _ _ _ _ _ hOldNe, getD_modifyIdx_ne _ _ _ _ _ hOldNe,
        getD_modifyIdx_self _ _ _ _ hOldLt]
      rfl
    · rw [getD_modifyIdx_self _ _ _ _ (by simpa [length_modifyIdx] using hNiLt)]
      rfl
    · rw [getD_modifyIdx_self _ _ _ _ (by simpa [length_modifyIdx] using hNiLt),
        getD_modifyIdx_self _ _ _ _ (by simpa [length_modifyIdx] using hNiLt),
        getD_modifyIdx_ne _ _ _ _ _ hne]
      simp only [Pixel.get_rgb8, Pixel.set_selected, Pixel.set_rgb8,
        and255_twice _ hr, and255_twice _ hg, and255_twice _ hb]
    · intro j hj1 hj2
      rw [getD_modifyIdx_ne _ _ _ _ _ hj2, getD_modifyIdx_ne _ _ _ _ _ hj2,
        getD_modifyIdx_ne _ _ _ _ _ hj1]

/-- C3 witness: `c3_set_selected_pixel` applied to the 3-pixel array fresh from the
constructor, moving the selection from 0 to 1. -/
theorem c3_set_selected_pixel_witness :
    ((PixelArray.init 3).set_selected_pixel 1).selected_pixel_index = 1 ∧
    (((PixelArray.init 3).set_selected_pixel 1).pixels.getD 0 (Pixel.init 0)).is_selected
      = false ∧
    (((PixelArray.init 3).set_selected_pixel 1).pixels.getD 1 (Pixel.init 0)).is_selected
      = true ∧
    (((PixelArray.init 3).set_selected_pixel 1).pixels.getD 1 (Pixel.init 0)).get_rgb8
      = (PixelArray.init 3).selected_color := by
  have h := (c3_set_selected_pixel (PixelArray.init 3) 1 (by decide) (by decide)
    (by decide) (by decide) (by decide)).2 (by decide)
  exact ⟨h.1, h.2.1, h.2.2.1, h.2.2.2.1⟩

/-! ### Claims C6 and C7 — selected-pixel invariant, `is_active` life cycle -/

/-- The invariant of claim C6: the currently selected pixel's per-pixel brightness is 255. -/
def selected_brightness_inv (pa : PixelArray) : Prop :=
  (pa.pixels.getD pa.selected_pixel_index (Pixel.init 0)).brightness = 255

/-- Evaluating a projection after an element-wise update that fixes it. -/
theorem getD_modifyIdx_preserve {α β : Type} (P : α → β) (f : α → α)
    (hf : ∀ x, P (f x) = P x) (i j : Nat) (l : List α) (d : α) :
    P ((modifyIdx f i l).getD j d) = P (l.getD j d) := by
  induction l generalizing i j with
  | nil => cases i <;> rfl
  | cons x xs ih =>
    cases i with
    | zero =>
      cases j with
      | zero => exact hf x
      | succ m => rfl
    | succ n =>
      cases j with
      | zero => rfl
      | succ m => exact ih n m

/-- Evaluating a projection after a map whose image is constant on that projection. -/
theorem getD_map_eval {α β : Type} (f : α → α) (P : α → β) (c : β)
    (hf : ∀ x, P (f x) = c) (i : Nat) (l : List α) (d : α) (h : i < l.length) :
    P ((l.map f).getD i d) = c := by
  induction l generalizing i with
  | nil => simp at h
  | cons x xs ih =>
    cases i with
    | zero => exact hf x
    | succ m => exact ih m (by simpa using h)

/-- An element-wise update that fixes a projection fixes the mapped projection list. -/
theorem map_modifyIdx_preserve {α β : Type} (P : α → β) (f : α → α)
    (hf : ∀ x, P (f x) = P x) (i : Nat) (l : List α) :
    (modifyIdx f i l).map P = l.map P := by
  induction l generalizing i with
  | nil => cases i <;> rfl
  | cons x xs ih =>
    cases i with
    | zero => simp [modifyIdx, hf]
    | succ n => simp [modifyIdx, ih]

/-- C6 counterexample: on the freshly constructed 2-pixel array, `clear()` leaves pixel 0
selected (flag and index) but sets its per-pixel brightness to 0, so the claimed
invariant "the currently selected pixel's brightness equals 255" is not preserved by
`clear`. -/
theorem c6_clear_counterexample :
    ((PixelArray.init 2).clear).selected_pixel_index = 0 ∧
    (((PixelArray.init 2).clear).pixels.getD 0 (Pixel.init 0)).is_selected = true ∧
    ¬ selected_brightness_inv ((PixelArray.init 2).clear) := by
  refine ⟨rfl, rfl, ?_⟩
  unfold selected_brightness_inv
  decide

/-- C6 (amended): the invariant "the selected pixel's brightness is 255, and the selected
pixel is exempt from fading" is preserved by `set_selected_pixel`, `set_selected`, `dim`,
`set_rgb8` and `apply_selected_color_to`; `clear` however sets every pixel's brightness
to 0, the selected one included, so it does not preserve the invariant. -/
theorem c6_selected_brightness_amended (p : Pixel) (amount : Int) (pa : PixelArray)
    (n i r8 g8 b8 : Nat)
    (hlen : pa.pixels.length = pa.led_count)
    (hsel : pa.selected_pixel_index < pa.led_count)
    (hinv : selected_brightness_inv pa) :
    (p.is_selected = true → p.dim amount = p) ∧
    (p.set_selected true).brightness = 255 ∧
    selected_brightness_inv (pa.set_selected_pixel n) ∧
    selected_brightness_inv (pa.set_rgb8 i r8 g8 b8) ∧
    selected_brightness_inv (pa.apply_selected_color_to i) ∧
    (pa.clear.pixels.getD pa.selected_pixel_index (Pixel.init 0)).brightness = 0 := by
  have hlc : 0 < pa.led_count := Nat.pos_of_ne_zero (by omega)
  refine ⟨?_, rfl, ?_, ?_, ?_, ?_⟩
  · intro h
    simp [Pixel.dim, h]
  · by_cases h : n % pa.led_count = pa.selected_pixel_index
    · unfold PixelArray.set_selected_pixel
      rw [if_pos h]
      exact hinv
    · have hNiLt : n % pa.led_count < pa.pixels.length := by
        have := Nat.mod_lt n hlc
        omega
      unfold selected_brightness_inv
      simp only [PixelArray.set_selected_pixel, PixelArray.apply_selected_color_to,
        PixelArray.set_rgb8, if_neg h]
      rw [getD_modifyIdx_self _ _ _ _ (by simpa [length_modifyIdx] using hNiLt)]
      rfl
  · unfold selected_brightness_inv at hinv ⊢
    simp only [PixelArray.set_rgb8]
    rw [getD_modifyIdx_preserve Pixel.brightness (fun px => px.set_rgb8 r8 g8 b8)
      (fun x => rfl)]
    exact hinv
  · unfold selected_brightness_inv at hinv ⊢
    simp only [PixelArray.apply_selected_color_to, PixelArray.set_rgb8]
    rw [getD_modifyIdx_preserve Pixel.brightness
      (fun px => px.set_rgb8 pa.selected_color.1 pa.selected_color.2.1 pa.selected_color.2.2)
      (fun x => rfl)]
    exact hinv
  · exact getD_map_eval _ Pixel.brightness 0 (fun x => rfl) _ _ _ (by omega)

/-- C6 witness: `c6_selected_brightness_amended` applied to the fresh 2-pixel array
(moving the selection to 1, and repainting pixel 0). -/
theorem c6_selected_brightness_amended_witness :
    selected_brightness_inv ((PixelArray.init 2).set_selected_pixel 1) ∧
    selected_brightness_inv ((PixelArray.init 2).set_rgb8 0 9 9 9) ∧
    ((PixelArray.init 2).clear.pixels.getD 0 (Pixel.init 0)).brightness = 0 := by
  have h := c6_selected_brightness_amended (Pixel.init 5) 15 (PixelArray.init 2) 1 0 9 9 9
    (by decide) (by decide) (by unfold selected_brightness_inv; decide)
  exact ⟨h.2.2.1, h.2.2.2.1, h.2.2.2.2.2⟩

/-- C7: evaluating the embedded code at the failing input — explicitly coloring a pixel
does NOT set its `active` flag: `set_rgb8` (and with it `apply_selected_color_to` and the
paint performed by `set_selected_pixel`) changes only the color channels and leaves every
pixel's `is_active` exactly as it was, so a freshly colored pixel still has
`is_active = false`, contrary to the claim (and to the source's own docstring for
`is_active`). -/
theorem c7_set_rgb8_does_not_activate :
    ((Pixel.init 0).set_rgb8 100 100 100).is_active = false ∧
    ((Pixel.init 0).set_rgb8 100 100 100).get_rgb8 = (100, 100, 100) ∧
    (∀ (p : Pixel) (r8 g8 b8 : Nat), (p.set_rgb8 r8 g8 b8).is_active = p.is_active) ∧
    (∀ (pa : PixelArray) (i r8 g8 b8 : Nat),
      (pa.set_rgb8 i r8 g8 b8).pixels.map Pixel.is_active =
        pa.pixels.map Pixel.is_active) ∧
    (∀ (pa : PixelArray) (i : Nat),
      (pa.apply_selected_color_to i).pixels.map Pixel.is_active =
        pa.pixels.map Pixel.is_active) ∧
    (∀ (pa : PixelArray) (n : Nat),
      (pa.set_selected_pixel n).pixels.map Pixel.is_active =
        pa.pixels.map Pixel.is_active) := by
  refine ⟨rfl, by decide, fun p r8 g8 b8 => rfl, ?_, ?_, ?_⟩
  · intro pa i r8 g8 b8
    simp only [PixelArray.set_rgb8]
    exact map_modifyIdx_preserve Pixel.is_active (fun px => px.set_rgb8 r8 g8 b8)
      (fun x => rfl) _ _
  · intro pa i
    simp only [PixelArray.apply_selected_color_to, PixelArray.set_rgb8]
    exact map_modifyIdx_preserve Pixel.is_active
      (fun px => px.set_rgb8 pa.selected_color.1 pa.selected_color.2.1 pa.selected_color.2.2)
      (fun x => rfl) _ _
  · intro pa n
    by_cases h : n % pa.led_count = pa.selected_pixel_index
    · unfold PixelArray.set_selected_pixel
      rw [if_pos h]
    · simp only [PixelArray.set_selected_pixel, PixelArray.apply_selected_color_to,
        PixelArray.set_rgb8, if_neg h]
      rw [map_modifyIdx_preserve Pixel.is_active (fun px => px.set_selected true)
          (fun x => rfl),
        map_modifyIdx_preserve Pixel.is_active
          (fun px => px.set_rgb8 pa.selected_color.1 pa.selected_color.2.1
            pa.selected_color.2.2) (fun x => rfl),
        map_modifyIdx_preserve Pixel.is_active (fun px => px.set_selected false)
          (fun x => rfl)]

/-! ### KeyState — `src/key_state.py`

Python sets of keycode strings become `List String` with insert-if-absent and erase;
one evdev event carries its `type`, first keycode alias, and keystate (0=UP, 1=DOWN,
2=HOLD/auto-repeat).  A call to `poll()` is modelled on the outcome of the device
interaction: the `select` call raising (device unplugged), the device not being
readable, or a list of pending events (a `read()` that raises `BlockingIOError`/`OSError`
mid-iteration is the same as receiving just the events yielded before the error, since
the exception is swallowed after the processed prefix took effect). -/

def EV_KEY : Nat := 1

structure KEvent where
  typ : Nat
  keycode : String
  keystate : Nat
deriving DecidableEq

structure KeyState where
  pressed_keys : List String
  keys_pressed_this_tick : List String
  keys_released_this_tick : List String
deriving DecidableEq

/-- Python `set.add`. -/
def setInsert (k : String) (s : List String) : List String :=
  if k ∈ s then s else k :: s

/-- The body of the `for input_event in self.device.read()` loop of `KeyState.poll`. -/
def processEvent (st : KeyState) (e : KEvent) : KeyState :=
  if e.typ ≠ EV_KEY then st
  else if e.keystate = 1 ∨ e.keystate = 2 then
    { st with
      keys_pressed_this_tick :=
        if e.keycode ∈ st.pressed_keys then st.keys_pressed_this_tick
        else setInsert e.keycode st.keys_pressed_this_tick
      pressed_keys := setInsert e.keycode st.pressed_keys }
  else if e.keystate = 0 then
    if e.keycode ∈ st.pressed_keys then
      { st with
        pressed_keys := st.pressed_keys.erase e.keycode
        keys_released_this_tick := setInsert e.keycode st.keys_released_this_tick }
    else st
  else st

inductive DevicePoll where
  | selectError
  | notReadable
  | events : List KEvent → DevicePoll
deriving DecidableEq

/-- Source `KeyState.poll()`: both tick sets are cleared first; a `select` exception or an
unreadable device returns with `pressed_keys` untouched; otherwise all pending events
are drained through the loop body. -/
def KeyState.poll (st : KeyState) (dev : DevicePoll) : KeyState :=
  let st0 : KeyState :=
    { st with keys_pressed_this_tick := [], keys_released_this_tick := [] }
  match dev with
  | .selectError => st0
  | .notReadable => st0
  | .events evs => evs.foldl processEvent st0

/-- Source `KeyState.is_pressed(*keycode_names)`: all given keys currently pressed. -/
def KeyState.is_pressed (st : KeyState) (keycode_names : List String) : Bool :=
  keycode_names.all fun k => decide (k ∈ st.pressed_keys)

/-- Source `KeyState.down_edge(*keycode_names)`: all given keys went down this tick. -/
def KeyState.down_edge (st : KeyState) (keycode_names : List String) : Bool :=
  keycode_names.all fun k => decide (k ∈ st.keys_pressed_this_tick)

/-- A DOWN or auto-repeat event for key `K`. -/
def isDownFor (e : KEvent) (K : String) : Prop :=
  e.typ = EV_KEY ∧ e.keycode = K ∧ (e.keystate = 1 ∨ e.keystate = 2)

/-- An UP event for key `K`. -/
def isUpFor (e : KEvent) (K : String) : Prop :=
  e.typ = EV_KEY ∧ e.keycode = K ∧ e.keystate = 0

theorem mem_setInsert_iff (a k : String) (s : List String) :
    a ∈ setInsert k s ↔ a = k ∨ a ∈ s := by
  unfold setInsert
  split
  · constructor
    · exact Or.inr
    · rintro (rfl | h) <;> assumption
  · simp [List.mem_cons]

theorem processEvent_tick_mono (K : String) (st : KeyState) (e : KEvent)
    (h : K ∈ st.keys_pressed_this_tick) :
    K ∈ (processEvent st e).keys_pressed_this_tick := by
  unfold processEvent
  repeat' split
  all_goals simp_all [mem_setInsert_iff]

theorem foldl_tick_mono (K : String) (evs : List KEvent) (st : KeyState)
    (h : K ∈ st.keys_pressed_this_tick) :
    K ∈ (evs.foldl processEvent st).keys_pressed_this_tick := by
  induction evs generalizing st with
  | nil => exact h
  | cons e rest ih => exact ih _ (processEvent_tick_mono K st e h)

/-- While a key stays held (no UP event for it), processing any event keeps it pressed
and does not add it to the down-edge set. -/
theorem processEvent_held (K : String) (st : KeyState) (e : KEvent)
    (hp : K ∈ st.pressed_keys) (ht : K ∉ st.keys_pressed_this_tick)
    (hnup : ¬ isUpFor e K) :
    K ∈ (processEvent st e).pressed_keys ∧
    K ∉ (processEvent st e).keys_pressed_this_tick := by
  unfold processEvent
  by_cases h1 : e.typ ≠ EV_KEY
  · rw [if_pos h1]
    exact ⟨hp, ht⟩
  · rw [if_neg h1]
    by_cases h2 : e.keystate = 1 ∨ e.keystate = 2
    · rw [if_pos h2]
      refine ⟨by simp [mem_setInsert_iff, hp], ?_⟩
      by_cases h3 : e.keycode ∈ st.pressed_keys
      · simpa [h3] using ht
      · have hne : K ≠ e.keycode := fun hh => h3 (hh ▸ hp)
        simp [h3, mem_setInsert_iff, hne, ht]
    · rw [if_neg h2]
      by_cases h4 : e.keystate = 0
      · rw [if_pos h4]
        have hne : e.keycode ≠ K := by
          intro hh
          exact hnup ⟨by omega, hh, h4⟩
        by_cases h5 : e.keycode ∈ st.pressed_keys
        · rw [if_pos h5]
          exact ⟨(List.mem_erase_of_ne (fun hh => hne hh.symm)).2 hp, ht⟩
        · rw [if_neg h5]
          exact ⟨hp, ht⟩
      · rw [if_neg h4]
        exact ⟨hp, ht⟩

theorem foldl_held (K : String) (evs : List KEvent) (st : KeyState)
    (hp : K ∈ st.pressed_keys) (ht : K ∉ st.keys_pressed_this_tick)
    (hnup : ∀ e ∈ evs, ¬ isUpFor e K) :
    K ∈ (evs.foldl processEvent st).pressed_keys ∧
    K ∉ (evs.foldl processEvent st).keys_pressed_this_tick := by
  induction evs generalizing st with
  | nil => exact ⟨hp, ht⟩
  | cons e rest ih =>
    have h := processEvent_held K st e hp ht (hnup e (by simp))
    exact ih _ h.1 h.2 (fun e' he' => hnup e' (by simp [he']))

/-- Processing any event preserves "in the down-edge set, or not pressed". -/
theorem processEvent_edge_inv (K : String) (st : KeyState) (e : KEvent)
    (h : K ∈ st.keys_pressed_this_tick ∨ K ∉ st.pressed_keys) :
    K ∈ (processEvent st e).keys_pressed_this_tick ∨
    K ∉ (processEvent st e).pressed_keys := by
  rcases h with h | h
  · exact Or.inl (processEvent_tick_mono K st e h)
  · unfold processEvent
    by_cases h1 : e.typ ≠ EV_KEY
    · rw [if_pos h1]
      exact Or.inr h
    · rw [if_neg h1]
      by_cases h2 : e.keystate = 1 ∨ e.keystate = 2
      · rw [if_pos h2]
        by_cases hk : e.keycode = K
        · subst hk
          rw [if_neg h]
          exact Or.inl (by simp [mem_setInsert_iff])
        · have hne : K ≠ e.keycode := fun hh => hk hh.symm
          refine Or.inr ?_
          simp only [mem_setInsert_iff]
          rintro (rfl | hm)
          · exact hk rfl
          · exact h hm
      · rw [if_neg h2]
        by_cases h4 : e.keystate = 0
        · rw [if_pos h4]
          by_cases h5 : e.keycode ∈ st.pressed_keys
          · rw [if_pos h5]
            refine Or.inr fun hm => h (List.mem_of_mem_erase hm)
          · rw [if_neg h5]
            exact Or.inr h
        · rw [if_neg h4]
          exact Or.inr h

/-- If some pending DOWN/REPEAT event is for `K`, and `K` started the drain either
already edge-marked or unpressed, then `K` ends up in the down-edge set. -/
theorem foldl_down_fires (K : String) (evs : List KEvent) (st : KeyState)
    (hinv : K ∈ st.keys_pressed_this_tick ∨ K ∉ st.pressed_keys)
    (hdown : ∃ e ∈ evs, isDownFor e K) :
    K ∈ (evs.foldl processEvent st).keys_pressed_this_tick := by
  induction evs generalizing st with
  | nil => simp at hdown
  | cons e rest ih =>
    by_cases hd : isDownFor e K
    · refine foldl_tick_mono K rest _ ?_
      obtain ⟨h1, h2, h3⟩ := hd
      rcases hinv with h | h
      · exact processEvent_tick_mono K st e h
      · unfold processEvent
        rw [if_neg (by omega), if_pos h3]
        subst h2
        rw [if_neg h]
        simp [mem_setInsert_iff]
    · have hinv' := processEvent_edge_inv K st e hinv
      rcases hdown with ⟨e', he', hde'⟩
      rcases List.mem_cons.1 he' with rfl | he''
      · exact absurd hde' hd
      · exact ih _ hinv' ⟨e', he'', hde'⟩

/-- Without a DOWN/REPEAT event for `K`, processing an event never adds `K` to the
down-edge set. -/
theorem processEvent_no_edge (K : String) (st : KeyState) (e : KEvent)
    (ht : K ∉ st.keys_pressed_this_tick) (hnd : ¬ isDownFor e K) :
    K ∉ (processEvent st e).keys_pressed_this_tick := by
  unfold processEvent
  by_cases h1 : e.typ ≠ EV_KEY
  · rw [if_pos h1]
    exact ht
  · rw [if_neg h1]
    by_cases h2 : e.keystate = 1 ∨ e.keystate = 2
    · rw [if_pos h2]
      have hk : e.keycode ≠ K := by
        intro hh
        exact hnd ⟨by omega, hh, h2⟩
      by_cases h3 : e.keycode ∈ st.pressed_keys
      · simpa [h3] using ht
      · simp only [h3, if_false, mem_setInsert_iff]
        rintro (rfl | hm)
        · exact hk rfl
        · exact ht hm
    · rw [if_neg h2]
      by_cases h4 : e.keystate = 0
      · rw [if_pos h4]
        split <;> exact ht
      · rw [if_neg h4]
        exact ht

theorem foldl_no_edge (K : String) (evs : List KEvent) (st : KeyState)
    (ht : K ∉ st.keys_pressed_this_tick) (hnd : ∀ e ∈ evs, ¬ isDownFor e K) :
    K ∉ (evs.foldl processEvent st).keys_pressed_this_tick := by
  induction evs generalizing st with
  | nil => exact ht
  | cons e rest ih =>
    exact ih _ (processEvent_no_edge K st e ht (hnd e (by simp)))
      (fun e' he' => hnd e' (by simp [he']))

/-- C4: on a poll whose pending events contain a DOWN or REPEAT for a key `K` that was
not pressed, `down_edge(K)` fires; on any poll while `K` is already pressed and no UP
event for `K` arrives, `K` stays pressed (`is_pressed` true) yet `down_edge(K)` is false
— even if further DOWN or REPEAT events for `K` arrive; and on any poll with no
DOWN/REPEAT event for `K` (in particular after release) `down_edge(K)` is false. -/
theorem c4_down_edge (K : String) (st : KeyState) (evs : List KEvent) :
    ((K ∈ st.pressed_keys → (∀ e ∈ evs, ¬ isUpFor e K) →
      (st.poll (DevicePoll.events evs)).is_pressed [K] = true ∧
      (st.poll (DevicePoll.events evs)).down_edge [K] = false) ∧
     (K ∉ st.pressed_keys → (∃ e ∈ evs, isDownFor e K) →
      (st.poll (DevicePoll.events evs)).down_edge [K] = true) ∧
     ((∀ e ∈ evs, ¬ isDownFor e K) →
      (st.poll (DevicePoll.events evs)).down_edge [K] = false)) := by
  refine ⟨?_, ?_, ?_⟩
  · intro hp hnup
    have h := foldl_held K evs
      { st with keys_pressed_this_tick := [], keys_released_this_tick := [] }
      hp (by simp) hnup
    constructor
    · simp only [KeyState.is_pressed, KeyState.poll, List.all_cons, List.all_nil]
      simpa using h.1
    · simp only [KeyState.down_edge, KeyState.poll, List.all_cons, List.all_nil]
      simpa using h.2
  · intro hp hdown
    have h := foldl_down_fires K evs
      { st with keys_pressed_this_tick := [], keys_released_this_tick := [] }
      (Or.inr hp) hdown
    simp only [KeyState.down_edge, KeyState.poll, List.all_cons, List.all_nil]
    simpa using h
  · intro hnd
    have h := foldl_no_edge K evs
      { st with keys_pressed_this_tick := [], keys_released_this_tick := [] }
      (by simp) hnd
    simp only [KeyState.down_edge, KeyState.poll, List.all_cons, List.all_nil]
    simpa using h

/-- C4 witness: a fresh tracker sees KEY_A go down (edge fires); on the next poll KEY_A
auto-repeats while held — `is_pressed` stays true and `down_edge` does not re-fire. -/
theorem c4_down_edge_witness :
    ((KeyState.mk [] [] []).poll
        (DevicePoll.events [KEvent.mk 1 "KEY_A" 1])).down_edge ["KEY_A"] = true ∧
    (((KeyState.mk [] [] []).poll (DevicePoll.events [KEvent.mk 1 "KEY_A" 1])).poll
        (DevicePoll.events [KEvent.mk 1 "KEY_A" 2])).is_pressed ["KEY_A"] = true ∧
    (((KeyState.mk [] [] []).poll (DevicePoll.events [KEvent.mk 1 "KEY_A" 1])).poll
        (DevicePoll.events [KEvent.mk 1 "KEY_A" 2])).down_edge ["KEY_A"] = false := by
  refine ⟨?_, ?_, ?_⟩
  · exact (c4_down_edge "KEY_A" (KeyState.mk [] [] [])
      [KEvent.mk 1 "KEY_A" 1]).2.1 (by simp)
      ⟨KEvent.mk 1 "KEY_A" 1, by simp, by simp [isDownFor, EV_KEY]⟩
  · exact ((c4_down_edge "KEY_A"
      ((KeyState.mk [] [] []).poll (DevicePoll.events [KEvent.mk 1 "KEY_A" 1]))
      [KEvent.mk 1 "KEY_A" 2]).1 (by decide)
      (by
        intro e he
        rw [List.mem_singleton] at he
        subst he
        rintro ⟨h1, h2, h3⟩
        exact absurd h3 (by decide))).1
  · exact ((c4_down_edge "KEY_A"
      ((KeyState.mk [] [] []).poll (DevicePoll.events [KEvent.mk 1 "KEY_A" 1]))
      [KEvent.mk 1 "KEY_A" 2]).1 (by decide)
      (by
        intro e he
        rw [List.mem_singleton] at he
        subst he
        rintro ⟨h1, h2, h3⟩
        exact absurd h3 (by decide))).2

/-- C9 counterexample: after a poll that pressed KEY_A, a poll whose `select` raises
(device unplugged) still clears the per-tick edge sets, so the down-edge set is NOT
"exactly what it was immediately before the call" (the pressed set is preserved). -/
theorem c9_error_poll_counterexample :
    (((KeyState.mk [] [] []).poll
        (DevicePoll.events [KEvent.mk 1 "KEY_A" 1])).keys_pressed_this_tick
      = ["KEY_A"]) ∧
    ((((KeyState.mk [] [] []).poll
        (DevicePoll.events [KEvent.mk 1 "KEY_A" 1])).poll
          DevicePoll.selectError).keys_pressed_this_tick = []) ∧
    ((((KeyState.mk [] [] []).poll
        (DevicePoll.events [KEvent.mk 1 "KEY_A" 1])).poll
          DevicePoll.selectError).keys_pressed_this_tick ≠
      ((KeyState.mk [] [] []).poll
        (DevicePoll.events [KEvent.mk 1 "KEY_A" 1])).keys_pressed_this_tick) := by
  refine ⟨rfl, rfl, ?_⟩
  decide

/-- C9 (amended): an errored poll returns normally (it is a total function of the device
outcome) and leaves the pressed set exactly as it was; the per-tick down-edge and
up-edge sets, however, are cleared at the start of every poll and are therefore empty
after an errored poll, exactly as on an uneventful poll. -/
theorem c9_error_poll_amended (st : KeyState) :
    (st.poll DevicePoll.selectError).pressed_keys = st.pressed_keys ∧
    (st.poll DevicePoll.selectError).keys_pressed_this_tick = [] ∧
    (st.poll DevicePoll.selectError).keys_released_this_tick = [] ∧
    (st.poll DevicePoll.notReadable).pressed_keys = st.pressed_keys ∧
    (st.poll DevicePoll.notReadable).keys_pressed_this_tick = [] ∧
    (st.poll DevicePoll.notReadable).keys_released_this_tick = [] :=
  ⟨rfl, rfl, rfl, rfl, rfl, rfl⟩

/-! ### Control-loop fragments — `src/src/PIXEL_CLI/pixel_cli.py` -/

def KEY_LEFT : String := "KEY_LEFT"
def KEY_RIGHT : String := "KEY_RIGHT"
def KEY_UP : String := "KEY_UP"
def KEY_DOWN : String := "KEY_DOWN"
def KEY_LEFTSHIFT : String := "KEY_LEFTSHIFT"
def KEY_RIGHTSHIFT : String := "KEY_RIGHTSHIFT"
def KEY_LEFTCTRL : String := "KEY_LEFTCTRL"
def KEY_RIGHTCTRL : String := "KEY_RIGHTCTRL"
def KEY_COMMA : String := "KEY_COMMA"
def KEY_DOT : String := "KEY_DOT"

/-- Source `move_selection(pixel_array, delta_leds)`: wrap the new index modulo the constant
`DEFAULT_NUM_LEDS` (Python `%` on a positive modulus = `Int.emod`), then hand it to
`set_selected_pixel`, which re-normalizes modulo the array's own `led_count`. -/
def move_selection (pa : PixelArray) (delta_leds : Int) : PixelArray :=
  let current_selected_led_index := pa.get_selected_pixel
  let new_selected_led_index :=
    ((current_selected_led_index : Int) + delta_leds) % (DEFAULT_NUM_LEDS : Int)
  pa.set_selected_pixel new_selected_led_index.toNat

/-- The modifier lookup of `poll_keyboard` (lines 212-219): 1, then 3 if a shift key is
held, then 12 if a control key is held (control wins when both are held). -/
def movement_step_multiplier (key_state : KeyState) : Nat :=
  let is_shift_down :=
    key_state.is_pressed [KEY_LEFTSHIFT] || key_state.is_pressed [KEY_RIGHTSHIFT]
  let is_ctrl_down :=
    key_state.is_pressed [KEY_LEFTCTRL] || key_state.is_pressed [KEY_RIGHTCTRL]
  let m := 1
  let m := if is_shift_down then 3 else m
  if is_ctrl_down then 12 else m

/-- The held-arrow movement block of `poll_keyboard` (lines 221-233): each held
direction fires `move_selection` once, in source order LEFT, RIGHT, UP, DOWN. -/
def apply_movement (key_state : KeyState) (pa : PixelArray) : PixelArray :=
  let mult : Int := movement_step_multiplier key_state
  let pa1 := if KEY_LEFT ∈ key_state.pressed_keys then move_selection pa (-mult) else pa
  let pa2 := if KEY_RIGHT ∈ key_state.pressed_keys then move_selection pa1 mult else pa1
  let pa3 := if KEY_UP ∈ key_state.pressed_keys then move_selection pa2 (5 * mult) else pa2
  if KEY_DOWN ∈ key_state.pressed_keys then move_selection pa3 (-(9 * mult)) else pa3

/-- The per-firing total of the claim's direction-to-delta mapping:
LEFT −1×mult, RIGHT +1×mult, UP +5×mult, DOWN −9×mult, cumulatively. -/
def movement_delta (key_state : KeyState) : Int :=
  let mult : Int := movement_step_multiplier key_state
  (if KEY_LEFT ∈ key_state.pressed_keys then -mult else 0) +
  (if KEY_RIGHT ∈ key_state.pressed_keys then mult else 0) +
  (if KEY_UP ∈ key_state.pressed_keys then 5 * mult else 0) +
  (if KEY_DOWN ∈ key_state.pressed_keys then -(9 * mult) else 0)

theorem move_selection_index (pa : PixelArray) (delta : Int) :
    (move_selection pa delta).selected_pixel_index =
      (((pa.selected_pixel_index : Int) + delta) % 288).toNat % pa.led_count := by
  unfold move_selection PixelArray.get_selected_pixel
  rw [set_selected_pixel_index]
  norm_num [DEFAULT_NUM_LEDS]

theorem move_selection_led_count (pa : PixelArray) (delta : Int) :
    (move_selection pa delta).led_count = pa.led_count := by
  unfold move_selection
  rw [set_selected_pixel_led_count]

/-- On a 288-LED array one conditional move composes as addition modulo 288. -/
theorem cond_move (c : Prop) [Decidable c] (pa : PixelArray) (d : Int)
    (h288 : pa.led_count = 288) (hidx : pa.selected_pixel_index < 288) :
    (((if c then move_selection pa d else pa).selected_pixel_index : Int) =
      ((pa.selected_pixel_index : Int) + (if c then d else 0)) % 288 ∧
     (if c then move_selection pa d else pa).led_count = 288 ∧
     (if c then move_selection pa d else pa).selected_pixel_index < 288) := by
  by_cases hc : c
  · simp only [if_pos hc]
    have h1 := move_selection_index pa d
    have h2 := move_selection_led_count pa d
    rw [h288] at h1
    refine ⟨?_, by omega, ?_⟩ <;> omega
  · simp only [if_neg hc]
    refine ⟨?_, h288, hidx⟩
    omega

/-- The selection index after one movement firing, as an integer mod 288. -/
theorem apply_movement_index (st : KeyState) (pa : PixelArray)
    (h288 : pa.led_count = 288) (hidx : pa.selected_pixel_index < 288) :
    ((apply_movement st pa).selected_pixel_index : Int) =
      ((pa.selected_pixel_index : Int) + movement_delta st) % 288 := by
  unfold apply_movement movement_delta
  dsimp only
  have s1 := cond_move (KEY_LEFT ∈ st.pressed_keys) pa
    (-(movement_step_multiplier st : Int)) h288 hidx
  have s2 := cond_move (KEY_RIGHT ∈ st.pressed_keys) _
    ((movement_step_multiplier st : Int)) s1.2.1 s1.2.2
  have s3 := cond_move (KEY_UP ∈ st.pressed_keys) _
    (5 * (movement_step_multiplier st : Int)) s2.2.1 s2.2.2
  have s4 := cond_move (KEY_DOWN ∈ st.pressed_keys) _
    (-(9 * (movement_step_multiplier st : Int))) s3.2.1 s3.2.2
  have h1 := s1.1
  have h2 := s2.1
  have h3 := s3.1
  have h4 := s4.1
  omega

/-- C5: one movement firing adds, modulo 288, the cumulative delta of all held
directions — −1×mult for LEFT, +1×mult for RIGHT, +5×mult for UP, −9×mult for DOWN —
where mult is 12 if a control key is held, else 3 if a shift key is held, else 1; on the
fresh 288-pixel array (selection at 0, multiplier 1), LEFT alone yields 287, RIGHT alone
1, UP alone 5, DOWN alone 279. -/
theorem c5_movement_deltas (st : KeyState) (pa : PixelArray)
    (h288 : pa.led_count = 288) (hidx : pa.selected_pixel_index < 288) :
    (((apply_movement st pa).selected_pixel_index : Int) =
      ((pa.selected_pixel_index : Int) + movement_delta st) % 288) ∧
    ((st.is_pressed [KEY_LEFTCTRL] || st.is_pressed [KEY_RIGHTCTRL]) = true →
      movement_step_multiplier st = 12) ∧
    ((st.is_pressed [KEY_LEFTCTRL] || st.is_pressed [KEY_RIGHTCTRL]) = false →
      (st.is_pressed [KEY_LEFTSHIFT] || st.is_pressed [KEY_RIGHTSHIFT]) = true →
      movement_step_multiplier st = 3) ∧
    ((st.is_pressed [KEY_LEFTCTRL] || st.is_pressed [KEY_RIGHTCTRL]) = false →
      (st.is_pressed [KEY_LEFTSHIFT] || st.is_pressed [KEY_RIGHTSHIFT]) = false →
      movement_step_multiplier st = 1) ∧
    (apply_movement (KeyState.mk [KEY_LEFT] [] [])
      (PixelArray.init 288)).selected_pixel_index = 287 ∧
    (apply_movement (KeyState.mk [KEY_RIGHT] [] [])
      (PixelArray.init 288)).selected_pixel_index = 1 ∧
    (apply_movement (KeyState.mk [KEY_UP] [] [])
      (PixelArray.init 288)).selected_pixel_index = 5 ∧
    (apply_movement (KeyState.mk [KEY_DOWN] [] [])
      (PixelArray.init 288)).selected_pixel_index = 279 := by
  refine ⟨apply_movement_index st pa h288 hidx, ?_, ?_, ?_, ?_, ?_, ?_, ?_⟩
  · intro h
    simp [movement_step_multiplier, h]
  · intro h1 h2
    simp [movement_step_multiplier, h1, h2]
  · intro h1 h2
    simp [movement_step_multiplier, h1, h2]
  all_goals
    first
    | (have h := apply_movement_index (KeyState.mk [KEY_LEFT] [] [])
        (PixelArray.init 288) rfl (by decide)
       have hd : movement_delta (KeyState.mk [KEY_LEFT] [] []) = -1 := by decide
       rw [hd, show (PixelArray.init 288).selected_pixel_index = 0 from rfl] at h
       omega)
    | (have h := apply_movement_index (KeyState.mk [KEY_RIGHT] [] [])
        (PixelArray.init 288) rfl (by decide)
       have hd : movement_delta (KeyState.mk [KEY_RIGHT] [] []) = 1 := by decide
       rw [hd, show (PixelArray.init 288).selected_pixel_index = 0 from rfl] at h
       omega)
    | (have h := apply_movement_index (KeyState.mk [KEY_UP] [] [])
        (PixelArray.init 288) rfl (by decide)
       have hd : movement_delta (KeyState.mk [KEY_UP] [] []) = 5 := by decide
       rw [hd, show (PixelArray.init 288).selected_pixel_index = 0 from rfl] at h
       omega)
    | (have h := apply_movement_index (KeyState.mk [KEY_DOWN] [] [])
        (PixelArray.init 288) rfl (by decide)
       have hd : movement_delta (KeyState.mk [KEY_DOWN] [] []) = -9 := by decide
       rw [hd, show (PixelArray.init 288).selected_pixel_index = 0 from rfl] at h
       omega)

/-- C5 witness: `c5_movement_deltas` instantiated on the fresh 288-pixel array with only
LEFT held. -/
theorem c5_movement_deltas_witness :
    ((apply_movement (KeyState.mk [KEY_LEFT] [] [])
        (PixelArray.init 288)).selected_pixel_index : Int) =
      (((PixelArray.init 288).selected_pixel_index : Int) +
        movement_delta (KeyState.mk [KEY_LEFT] [] [])) % 288 :=
  (c5_movement_deltas (KeyState.mk [KEY_LEFT] [] []) (PixelArray.init 288)
    rfl (by decide)).1

/-- C10: `move_selection` sets the selected index to
`((current + delta) mod DEFAULT_NUM_LEDS) mod led_count` with `DEFAULT_NUM_LEDS = 288` —
the wrap happens modulo the constant 288 before `set_selected_pixel` re-normalizes
modulo the array's own `led_count`; for `led_count = 100`, current 0, delta −9 this
yields 79, not the 91 that `(current + delta) mod led_count` would give. -/
theorem c10_move_selection_mod (pa : PixelArray) (delta : Int)
    (_hpos : 0 < pa.led_count) :
    ((move_selection pa delta).selected_pixel_index =
      (((pa.selected_pixel_index : Int) + delta) % 288).toNat % pa.led_count) ∧
    DEFAULT_NUM_LEDS = 288 ∧
    (move_selection (PixelArray.init 100) (-9)).selected_pixel_index = 79 ∧
    ((((PixelArray.init 100).selected_pixel_index : Int) + (-9)) % 100).toNat = 91 := by
  refine ⟨move_selection_index pa delta, rfl, ?_, by decide⟩
  have h := move_selection_index (PixelArray.init 100) (-9)
  rw [show (PixelArray.init 100).selected_pixel_index = 0 from rfl,
    show (PixelArray.init 100).led_count = 100 from rfl] at h
  omega

/-- C10 witness: `c10_move_selection_mod` instantiated on the 100-pixel array. -/
theorem c10_move_selection_mod_witness :
    (move_selection (PixelArray.init 100) (-9)).selected_pixel_index =
      ((((PixelArray.init 100).selected_pixel_index : Int) + (-9)) % 288).toNat %
        (PixelArray.init 100).led_count :=
  (c10_move_selection_mod (PixelArray.init 100) (-9) (by decide)).1

/-! ### Claim C8 — the brightness-adjustment section of `poll_keyboard`
(`src/src/PIXEL_CLI/pixel_cli.py` lines 169-177).

In the source, `global_brightness` is assigned inside `poll_keyboard` (and nowhere bound
before its first read in that function), so Python scoping makes it an uninitialized
function local: the read on the right-hand side of
`global_brightness = max(0, global_brightness - ui_state.adjustment_step)` raises
`UnboundLocalError`.  The parameter `global_brightness : Option Int` models that local
(`none` = unbound, which is its value on every entry to `poll_keyboard`); the result is
the updated local plus the list of frames written, or the runtime error. -/

def brightness_section (key_state : KeyState) (adjustment_step : Int)
    (global_brightness : Option Int) : Except String (Option Int × List (List Nat)) :=
  let afterComma : Except String (Option Int × List (List Nat)) :=
    if KEY_COMMA ∈ key_state.pressed_keys then
      match global_brightness with
      | none => Except.error "UnboundLocalError: global_brightness"
      | some g =>
        Except.ok (some (max 0 (g - adjustment_step)),
          [send_brightness (max 0 (g - adjustment_step)), send_show])
    else Except.ok (global_brightness, [])
  match afterComma with
  | Except.error msg => Except.error msg
  | Except.ok (gb1, frames1) =>
    if KEY_DOT ∈ key_state.pressed_keys then
      match gb1 with
      | none => Except.error "UnboundLocalError: global_brightness"
      | some g =>
        Except.ok (some (min 255 (g + adjustment_step)),
          frames1 ++ [send_brightness (min 255 (g + adjustment_step)), send_show])
    else Except.ok (gb1, frames1)

/-- C8: the claim describes the intended behaviour (decrement/increment the global
brightness by the step, clamped to [0,255], and send BRIGHTNESS+SHOW every tick the key
is held), but on every entry to `poll_keyboard` the local `global_brightness` is unbound,
so a tick with KEY_COMMA (or KEY_DOT) held raises `UnboundLocalError` instead and no
frame is written; had the local been bound (as in the pre-refactor loop), the section
would do exactly what the claim says — shown here for brightness 64 and step 8. -/
theorem c8_brightness_unbound_local :
    brightness_section (KeyState.mk [KEY_COMMA] [] []) 8 none =
      Except.error "UnboundLocalError: global_brightness" ∧
    brightness_section (KeyState.mk [KEY_DOT] [] []) 8 none =
      Except.error "UnboundLocalError: global_brightness" ∧
    brightness_section (KeyState.mk [KEY_COMMA] [] []) 8 (some 64) =
      Except.ok (some 56, [send_brightness 56, send_show]) ∧
    brightness_section (KeyState.mk [KEY_DOT] [] []) 8 (some 64) =
      Except.ok (some 72, [send_brightness 72, send_show]) ∧
    brightness_section (KeyState.mk [] [] []) 8 none = Except.ok (none, []) := by
  refine ⟨rfl, rfl, ?_, ?_, rfl⟩ <;>
    simp [brightness_section, KEY_COMMA, KEY_DOT]

end ArduinoLed
